import Mathlib

/-!
Shallow embedding of the RaksReactor simulation core (src/components.js and
the game-loop part of src/main.js).

JavaScript numbers are modelled as rationals (ℚ); grid coordinates are
integers (JS click coordinates are parsed integers, and out-of-bounds
lookups may be negative).  Component objects live in a heap
(`Nat → Component`); grid cells store component ids, mirroring JS object
references, so aliasing (the same object placed in two cells) is
representable.
-/

namespace RaksReactor

/-- Discriminated per-variant state of a component, mirroring the three
subclasses FuelCell, Vent and CoolantCell of components.js. -/
inductive CompKind where
  | fuelCell (basePower baseHeat lifespan age : ℚ)
  | vent (coolingRate : ℚ)
  | coolant (capacity storedHeat : ℚ)
  deriving DecidableEq, Repr

/-- A reactor component: the fields of ReactorComponent (type via `kind`,
cost, x, y) plus the grid back-reference.  In JS `gridRef` is a pointer to
the owning grid; with a single grid in play a boolean records whether it is
bound. -/
structure Component where
  kind : CompKind
  cost : ℚ
  x : Int
  y : Int
  gridRef : Bool
  deriving DecidableEq, Repr

/-- Constructor `new FuelCell()`: cost 10, basePower 1, baseHeat 1,
lifespan 15*60 = 900 ticks (the source's constant expression written as
its value), age 0. -/
def fuelCellNew : Component :=
  { kind := .fuelCell 1 1 900 0, cost := 10, x := 0, y := 0, gridRef := false }

/-- Constructor `new Vent()`: cost 5, coolingRate 2. -/
def ventNew : Component :=
  { kind := .vent 2, cost := 5, x := 0, y := 0, gridRef := false }

/-- Constructor `new CoolantCell()`: cost 20, capacity 200, storedHeat 0. -/
def coolantCellNew : Component :=
  { kind := .coolant 200 0, cost := 20, x := 0, y := 0, gridRef := false }

/-- True when the component is a FuelCell (`comp instanceof FuelCell`). -/
def isFuelCell (c : Component) : Bool :=
  match c.kind with
  | .fuelCell _ _ _ _ => true
  | _ => false

/-- True when the component is a CoolantCell (`comp instanceof CoolantCell`). -/
def isCoolant (c : Component) : Bool :=
  match c.kind with
  | .coolant _ _ => true
  | _ => false

/-- ReactorComponent.setPosition. -/
def setPosition (c : Component) (x y : Int) : Component :=
  { c with x := x, y := y }

/-- CoolantCell.acceptHeat: store `min(capacity - storedHeat, amount)` and
return the component together with the excess `amount - accepted`.
On a non-coolant component it is not defined in JS; modelled as identity. -/
def acceptHeat (c : Component) (amount : ℚ) : Component × ℚ :=
  match c.kind with
  | .coolant cap stored =>
    let space := cap - stored
    let accepted := min space amount
    ({ c with kind := .coolant cap (stored + accepted) }, amount - accepted)
  | _ => (c, amount)

/-- ReactorState: heat, heatCapacity, power, powerCapacity, money. -/
structure ReactorState where
  heat : ℚ
  heatCapacity : ℚ
  power : ℚ
  powerCapacity : ℚ
  money : ℚ
  deriving DecidableEq, Repr

/-- Initial state from the ReactorState constructor. -/
def initState : ReactorState :=
  { heat := 0, heatCapacity := 1000, power := 0, powerCapacity := 100, money := 50 }

/-- ReactorState.addHeat: `heat += amount`, no clamp. -/
def addHeat (s : ReactorState) (amount : ℚ) : ReactorState :=
  { s with heat := s.heat + amount }

/-- ReactorState.removeHeat: `heat = max(0, heat - amount)`. -/
def removeHeat (s : ReactorState) (amount : ℚ) : ReactorState :=
  { s with heat := max 0 (s.heat - amount) }

/-- ReactorState.addPower: `power = min(power + amount, powerCapacity)`. -/
def addPower (s : ReactorState) (amount : ℚ) : ReactorState :=
  { s with power := min (s.power + amount) s.powerCapacity }

/-- ReactorState.sellPower: zero power, add the sold amount to money at
1 power = 1 dollar, and return the amount sold. -/
def sellPower (s : ReactorState) : ReactorState × ℚ :=
  ({ s with power := 0, money := s.money + s.power }, s.power)

/-- ReactorGrid dimensions and cell array; each cell optionally holds a
component id (the JS object reference). -/
structure ReactorGrid where
  width : Nat
  height : Nat
  cells : List (List (Option Nat))
  deriving DecidableEq, Repr

/-- ReactorGrid constructor: a height x width array of null cells. -/
def mkGrid (width height : Nat) : ReactorGrid :=
  { width := width, height := height,
    cells := List.replicate height (List.replicate width none) }

/-- ReactorGrid.inBounds. -/
def inBounds (g : ReactorGrid) (x y : Int) : Bool :=
  0 ≤ x && x < (g.width : Int) && 0 ≤ y && y < (g.height : Int)

/-- Raw cell access `cells[y][x]` by array indices. -/
def cellN (g : ReactorGrid) (x y : Nat) : Option Nat :=
  (g.cells.getD y []).getD x none

/-- Cell access at possibly out-of-range coordinates: in JS
`cells[y][x]` on an out-of-range index yields undefined (falsy), read here
as `none`; every read in the source is guarded by inBounds anyway. -/
def cellAt (g : ReactorGrid) (x y : Int) : Option Nat :=
  if inBounds g x y then cellN g x.toNat y.toNat else none

/-- Assignment `cells[y][x] = v`. -/
def setCell (g : ReactorGrid) (x y : Nat) (v : Option Nat) : ReactorGrid :=
  { g with cells := g.cells.set y ((g.cells.getD y []).set x v) }

/-- Well-formedness of the cell array as built by the constructor:
height rows of width entries each. -/
def WF (g : ReactorGrid) : Prop :=
  g.cells.length = g.height ∧ ∀ row ∈ g.cells, row.length = g.width

instance (g : ReactorGrid) : Decidable (WF g) := by
  unfold WF; infer_instance

/-- A world couples the grid with the heap of component objects. -/
structure World where
  grid : ReactorGrid
  comps : Nat → Component

/-- Overwrite one component object in the heap (a JS field mutation on the
object named by `id`). -/
def updateComp (w : World) (id : Nat) (c : Component) : World :=
  { w with comps := fun j => if j = id then c else w.comps j }

/-- ReactorGrid.placeComponent: fail on out-of-bounds or occupied cell;
otherwise store the reference, set the component position and bind its
grid back-reference. -/
def placeComponent (w : World) (id : Nat) (x y : Int) : World × Bool :=
  if ¬ inBounds w.grid x y then (w, false)
  else if (cellAt w.grid x y).isSome then (w, false)
  else
    let w1 : World := { w with grid := setCell w.grid x.toNat y.toNat (some id) }
    let c1 : Component := { setPosition (w.comps id) x y with gridRef := true }
    (updateComp w1 id c1, true)

/-- ReactorGrid.removeComponent: no-op on out-of-bounds or empty cell;
otherwise null the cell.  The component object itself is not touched. -/
def removeComponent (w : World) (x y : Int) : World :=
  if ¬ inBounds w.grid x y then w
  else
    match cellAt w.grid x y with
    | none => w
    | some _ => { w with grid := setCell w.grid x.toNat y.toNat none }

/-- Neighbour offsets in the order the source lists them. -/
def adjacentDirs : List (Int × Int) := [(1, 0), (-1, 0), (0, 1), (0, -1)]

/-- ReactorGrid.getAdjacent: the occupied orthogonal neighbours of (x,y),
in direction order. -/
def getAdjacent (w : World) (x y : Int) : List Component :=
  adjacentDirs.filterMap fun d =>
    (cellAt w.grid (x + d.1) (y + d.2)).map w.comps

/-- FuelCell.gridNeighbours: empty when the back-reference is unbound. -/
def gridNeighbours (w : World) (c : Component) : List Component :=
  if c.gridRef then getAdjacent w c.x c.y else []

/-- FuelCell.pulses: one base pulse plus one per neighbouring fuel cell. -/
def pulses (w : World) (c : Component) : Nat :=
  1 + (gridNeighbours w c).countP isFuelCell

/-- Dispatch of `comp.tick(ctx)` over the three variants: FuelCell ages and
produces power and heat scaled by pulses unless depleted; Vent removes
coolingRate heat; CoolantCell does nothing.  Returns the updated global
state and the updated component object. -/
def compTick (w : World) (s : ReactorState) (c : Component) : ReactorState × Component :=
  match c.kind with
  | .fuelCell bp bh ls a =>
    if ls ≤ a then (s, c)
    else
      let c1 : Component := { c with kind := .fuelCell bp bh ls (a + 1) }
      let p : ℚ := (pulses w c1 : ℚ)
      (addHeat (addPower s (bp * p)) (bh * p), c1)
  | .vent cr => (removeHeat s cr, c)
  | .coolant _ _ => (s, c)

/-- Row-major traversal order of the grid (y outer, x inner), as in the
source's nested for loops. -/
def coordsList (g : ReactorGrid) : List (Int × Int) :=
  (List.range g.height).flatMap fun y =>
    (List.range g.width).map fun x => ((x : Int), (y : Int))

/-- One step of the production pass: tick the component in one cell, if
any, threading heap and state. -/
def tickStep (ws : World × ReactorState) (p : Int × Int) : World × ReactorState :=
  match cellAt ws.1.grid p.1 p.2 with
  | none => ws
  | some id =>
    let r := compTick ws.1 ws.2 (ws.1.comps id)
    (updateComp ws.1 id r.2, r.1)

/-- Production pass of ReactorGrid.tick: tick every occupied cell in
row-major order. -/
def tickPass1 (w : World) (s : ReactorState) : World × ReactorState :=
  (coordsList w.grid).foldl tickStep (w, s)

/-- The coolant cells of the grid collected in row-major order
(`comp instanceof CoolantCell`), as heap ids. -/
def coolantIds (w : World) : List Nat :=
  (coordsList w.grid).filterMap fun p =>
    match cellAt w.grid p.1 p.2 with
    | some id => if isCoolant (w.comps id) then some id else none
    | none => none

/-- One step of the redistribution loop: offer `share` heat to one coolant
cell and add the returned excess to the accumulating heat pool. -/
def distStep (share : ℚ) (wh : World × ℚ) (id : Nat) : World × ℚ :=
  let r := acceptHeat (wh.1.comps id) share
  (updateComp wh.1 id r.1, wh.2 + r.2)

/-- Heat redistribution pass of ReactorGrid.tick: when heat is positive and
coolant cells exist, split heat equally, zero the pool, then feed each
coolant its share, returning excess to the pool. -/
def tickPass2 (w : World) (s : ReactorState) : World × ReactorState :=
  if 0 < s.heat then
    let ids := coolantIds w
    if 0 < ids.length then
      let share := s.heat / (ids.length : ℚ)
      let r := ids.foldl (distStep share) (w, 0)
      (r.1, { s with heat := r.2 })
    else (w, s)
  else (w, s)

/-- ReactorGrid.tick: production pass then heat redistribution pass. -/
def gridTick (w : World) (s : ReactorState) : World × ReactorState :=
  let r := tickPass1 w s
  tickPass2 r.1 r.2

/-- The meltdown clearing loop of gameTick in main.js: remove every
FuelCell from the grid, row-major. -/
def removeFuelCells (w : World) : World :=
  (coordsList w.grid).foldl
    (fun wacc p =>
      match cellAt wacc.grid p.1 p.2 with
      | some id => if isFuelCell (wacc.comps id) then removeComponent wacc p.1 p.2 else wacc
      | none => wacc)
    w

/-- gameTick from main.js: run the grid tick, then, when heat exceeds
heatCapacity, remove all fuel cells and reset heat to 0.  No other
post-tick check exists in the source. -/
def gameTick (w : World) (s : ReactorState) : World × ReactorState :=
  let r := gridTick w s
  if r.2.heatCapacity < r.2.heat then
    (removeFuelCells r.1, { r.2 with heat := 0 })
  else r

/-! Concrete worlds used to instantiate theorems, mirroring the
scenarios in the spec: heaps are finite lists of freshly constructed
components, grids are the 6x6 grid main.js builds. -/

/-- Heap backed by a list of component objects. -/
def heap0 (l : List Component) : Nat → Component := fun i => l.getD i fuelCellNew

/-- Empty 6x6 world with one fresh fuel cell object in the heap. -/
def w0 : World := { grid := mkGrid 6 6, comps := heap0 [fuelCellNew] }

/-- World with a single fuel cell placed at (2,2). -/
def w1 : World := (placeComponent w0 0 2 2).1

/-- World with a single coolant cell placed at (0,0). -/
def wc : World :=
  (placeComponent { grid := mkGrid 6 6, comps := heap0 [coolantCellNew] } 0 0 0).1

/-- World with a single vent placed at (0,0). -/
def wv : World :=
  (placeComponent { grid := mkGrid 6 6, comps := heap0 [ventNew] } 0 0 0).1

/-- Five fuel cells in a plus shape centred at (2,2). -/
def wplus : World :=
  let w : World :=
    { grid := mkGrid 6 6,
      comps := heap0 [fuelCellNew, fuelCellNew, fuelCellNew, fuelCellNew, fuelCellNew] }
  let w := (placeComponent w 0 2 2).1
  let w := (placeComponent w 1 3 2).1
  let w := (placeComponent w 2 1 2).1
  let w := (placeComponent w 3 2 3).1
  (placeComponent w 4 2 1).1

/-- Initial state with 50 heat injected. -/
def s50 : ReactorState := { initState with heat := 50 }

/-- Initial state with power raised to the 100 capacity. -/
def s100 : ReactorState := { initState with power := 100 }

/-! Generic facts about the grid representation. -/

/-- Propositional reading of inBounds. -/
theorem inBounds_iff (g : ReactorGrid) (x y : Int) :
    inBounds g x y = true ↔
      0 ≤ x ∧ x < (g.width : Int) ∧ 0 ≤ y ∧ y < (g.height : Int) := by
  simp [inBounds, Bool.and_eq_true, decide_eq_true_eq, and_assoc]

/-- Every row of a well-formed grid has length width. -/
theorem row_length (g : ReactorGrid) (hwf : WF g) (y : Nat) (hy : y < g.height) :
    (g.cells.getD y []).length = g.width := by
  have h1 : y < g.cells.length := hwf.1 ▸ hy
  have hmem : g.cells.getD y [] ∈ g.cells := by
    rw [List.getD_eq_getElem?_getD, List.getElem?_eq_getElem h1, Option.getD_some]
    exact List.getElem_mem h1
  exact hwf.2 _ hmem

/-- Extracting the freshly written row of setCell. -/
theorem setCell_row_self (g : ReactorGrid) (x y : Nat) (v : Option Nat)
    (h1 : y < g.cells.length) :
    (setCell g x y v).cells.getD y [] = (g.cells.getD y []).set x v := by
  show (g.cells.set y ((g.cells.getD y []).set x v)).getD y [] = _
  rw [List.getD_eq_getElem?_getD, List.getElem?_set_self h1, Option.getD_some]

/-- Reading back the cell just written. -/
theorem cellN_setCell_self (g : ReactorGrid) (hwf : WF g) (x y : Nat)
    (hx : x < g.width) (hy : y < g.height) (v : Option Nat) :
    cellN (setCell g x y v) x y = v := by
  have h1 : y < g.cells.length := hwf.1 ▸ hy
  have h2 : x < (g.cells.getD y []).length := by
    rw [row_length g hwf y hy]; exact hx
  show ((setCell g x y v).cells.getD y []).getD x none = v
  rw [setCell_row_self g x y v h1, List.getD_eq_getElem?_getD,
    List.getElem?_set_self h2, Option.getD_some]

/-- Writing one cell leaves every other cell unchanged. -/
theorem cellN_setCell_ne (g : ReactorGrid) (x y x2 y2 : Nat) (v : Option Nat)
    (hne : ¬ (x = x2 ∧ y = y2)) :
    cellN (setCell g x y v) x2 y2 = cellN g x2 y2 := by
  show ((g.cells.set y ((g.cells.getD y []).set x v)).getD y2 []).getD x2 none
      = (g.cells.getD y2 []).getD x2 none
  by_cases hy : y = y2
  · subst hy
    have hx : x ≠ x2 := fun h => hne ⟨h, rfl⟩
    by_cases h1 : y < g.cells.length
    · rw [List.getD_eq_getElem?_getD (g.cells.set y ((g.cells.getD y []).set x v)) y [],
        List.getElem?_set_self h1, Option.getD_some,
        List.getD_eq_getElem?_getD ((g.cells.getD y []).set x v) x2 none,
        List.getElem?_set_ne hx, ← List.getD_eq_getElem?_getD]
    · rw [List.set_eq_of_length_le (Nat.le_of_not_lt h1)]
  · rw [List.getD_eq_getElem?_getD (g.cells.set y ((g.cells.getD y []).set x v)) y2 [],
      List.getElem?_set_ne hy, ← List.getD_eq_getElem?_getD]

/-- Writing a cell keeps the grid well formed. -/
theorem WF_setCell (g : ReactorGrid) (hwf : WF g) (x y : Nat) (v : Option Nat) :
    WF (setCell g x y v) := by
  by_cases h1 : y < g.cells.length
  · refine ⟨by simpa [setCell] using hwf.1, ?_⟩
    intro row hrow
    simp only [setCell] at hrow
    rcases List.mem_or_eq_of_mem_set hrow with h | h
    · exact hwf.2 _ h
    · subst h
      rw [List.length_set]
      exact row_length g hwf y (hwf.1 ▸ h1)
  · have hid : setCell g x y v = g := by
      simp [setCell, List.set_eq_of_length_le (Nat.le_of_not_lt h1)]
    rw [hid]; exact hwf

/-- Width, height and cell array length are preserved by setCell. -/
theorem setCell_dims (g : ReactorGrid) (x y : Nat) (v : Option Nat) :
    (setCell g x y v).width = g.width ∧ (setCell g x y v).height = g.height := ⟨rfl, rfl⟩

/-- C6: sellPower zeroes power, adds exactly the prior power value to money
at the 1:1 rate (exactly once), returns that amount, touches nothing else;
on a zero-power state it is the identity and returns 0. -/
theorem C6_sellPower_spec (s : ReactorState) :
    (sellPower s).1.power = 0 ∧
    (sellPower s).1.money = s.money + s.power ∧
    (sellPower s).2 = s.power ∧
    (sellPower s).1.heat = s.heat ∧
    (sellPower s).1.heatCapacity = s.heatCapacity ∧
    (sellPower s).1.powerCapacity = s.powerCapacity ∧
    (s.power = 0 → sellPower s = (s, 0)) := by
  refine ⟨rfl, rfl, rfl, rfl, rfl, rfl, fun h => ?_⟩
  cases s with
  | mk heat hc power pc money =>
    simp only at h
    subst h
    simp [sellPower]

/-- Witness for C6 at the initial state. -/
theorem C6_sellPower_spec_witness :
    (sellPower initState).1.power = 0 ∧
    (sellPower initState).1.money = initState.money + initState.power ∧
    (sellPower initState).2 = initState.power ∧
    (sellPower initState).1.heat = initState.heat ∧
    (sellPower initState).1.heatCapacity = initState.heatCapacity ∧
    (sellPower initState).1.powerCapacity = initState.powerCapacity ∧
    (initState.power = 0 → sellPower initState = (initState, 0)) :=
  C6_sellPower_spec initState

/-- The resource-state invariants of the spec. -/
def StateInv (s : ReactorState) : Prop :=
  0 ≤ s.power ∧ s.power ≤ s.powerCapacity ∧ 0 ≤ s.heat

instance (s : ReactorState) : Decidable (StateInv s) := by
  unfold StateInv; infer_instance

/-- C5 counterexample: the initial state satisfies the invariants, yet
addHeat applied with the numeric argument -1 leaves heat = -1 < 0, so the
invariants do not survive arbitrary numeric arguments. -/
theorem C5_state_inv_counterexample :
    StateInv initState ∧ ¬ StateInv (addHeat initState (-1)) := by
  constructor
  · refine ⟨le_refl _, ?_, le_refl _⟩
    show (0 : ℚ) ≤ 100
    norm_num
  · intro h
    have := h.2.2
    simp only [addHeat, initState] at this
    norm_num at this

/-- C5 amended: after any single ResourceState mutation with a
non-negative amount, the invariants 0 ≤ power ≤ powerCapacity and
heat ≥ 0 hold, starting from any state satisfying them. -/
theorem C5_state_inv_preserved (s : ReactorState) (a : ℚ)
    (hs : StateInv s) (ha : 0 ≤ a) :
    StateInv (addHeat s a) ∧ StateInv (removeHeat s a) ∧
    StateInv (addPower s a) ∧ StateInv (sellPower s).1 := by
  obtain ⟨hp0, hpc, hh0⟩ := hs
  refine ⟨⟨hp0, hpc, add_nonneg hh0 ha⟩,
    ⟨hp0, hpc, le_max_left 0 _⟩,
    ⟨le_min (add_nonneg hp0 ha) (le_trans hp0 hpc), min_le_right _ _, hh0⟩,
    ⟨le_refl 0, le_trans hp0 hpc, hh0⟩⟩

/-- Witness for C5 amended at the initial state with amount 1. -/
theorem C5_state_inv_preserved_witness :
    StateInv initState ∧ (0 : ℚ) ≤ 1 ∧
    (StateInv (addHeat initState 1) ∧ StateInv (removeHeat initState 1) ∧
     StateInv (addPower initState 1) ∧ StateInv (sellPower initState).1) :=
  ⟨by decide, by norm_num,
   C5_state_inv_preserved initState 1 (by decide) (by norm_num)⟩

/-- C4: the fuel-cell lifespan is fixed at 900 ticks; a fuel cell with
age ≥ lifespan ticks as a no-op (state and component, hence power, heat
and age, all unchanged), while one with age < lifespan has its age
incremented by exactly 1. -/
theorem C4_fuelCell_depletion (w : World) (s : ReactorState) (c : Component)
    (bp bh ls a : ℚ) (hk : c.kind = .fuelCell bp bh ls a) :
    fuelCellNew.kind = CompKind.fuelCell 1 1 900 0 ∧
    (ls ≤ a → compTick w s c = (s, c)) ∧
    (a < ls → (compTick w s c).2.kind = .fuelCell bp bh ls (a + 1)) := by
  refine ⟨by norm_num [fuelCellNew], ?_, ?_⟩
  · intro h
    simp only [compTick, hk, if_pos h]
  · intro h
    simp only [compTick, hk, if_neg (not_le.mpr h)]

/-- Witness for C4 at a depleted cell (age = 900 = lifespan). -/
theorem C4_fuelCell_depletion_witness :
    ({ fuelCellNew with kind := .fuelCell 1 1 900 900 } : Component).kind
        = CompKind.fuelCell 1 1 900 900 ∧
    (fuelCellNew.kind = CompKind.fuelCell 1 1 900 0 ∧
     ((900 : ℚ) ≤ 900 →
        compTick w0 initState { fuelCellNew with kind := .fuelCell 1 1 900 900 }
          = (initState, { fuelCellNew with kind := .fuelCell 1 1 900 900 })) ∧
     ((900 : ℚ) < 900 →
        (compTick w0 initState { fuelCellNew with kind := .fuelCell 1 1 900 900 }).2.kind
          = .fuelCell 1 1 900 (900 + 1))) :=
  ⟨rfl, C4_fuelCell_depletion w0 initState _ 1 1 900 900 rfl⟩

/-- C1: on the 6x6 well-formed grid, placeComponent returns true iff (x,y)
is within bounds and the target cell is empty; on success the component's
stored position equals (x,y), its grid back-reference is bound and the
cell holds the component; on failure the world (grid and all component
objects) is unchanged. -/
theorem C1_placeComponent_spec (w : World) (id : Nat) (x y : Int)
    (h6w : w.grid.width = 6) (h6h : w.grid.height = 6) (hwf : WF w.grid) :
    ((placeComponent w id x y).2 = true ↔
      (0 ≤ x ∧ x < 6 ∧ 0 ≤ y ∧ y < 6 ∧ cellAt w.grid x y = none)) ∧
    ((placeComponent w id x y).2 = true →
      ((placeComponent w id x y).1.comps id).x = x ∧
      ((placeComponent w id x y).1.comps id).y = y ∧
      ((placeComponent w id x y).1.comps id).gridRef = true ∧
      cellAt (placeComponent w id x y).1.grid x y = some id) ∧
    ((placeComponent w id x y).2 = false → (placeComponent w id x y).1 = w) := by
  have hbp : inBounds w.grid x y = true ↔ (0 ≤ x ∧ x < 6 ∧ 0 ≤ y ∧ y < 6) := by
    rw [inBounds_iff, h6w, h6h]
    norm_num
  by_cases hb : inBounds w.grid x y = true
  · by_cases hc : (cellAt w.grid x y).isSome = true
    · have hplace : placeComponent w id x y = (w, false) := by
        unfold placeComponent
        rw [if_neg (not_not_intro hb), if_pos hc]
      refine ⟨?_, ?_, ?_⟩
      · rw [hplace]
        simp only [Bool.false_eq_true, false_iff]
        rintro ⟨-, -, -, -, hnone⟩
        rw [hnone] at hc
        simp at hc
      · rw [hplace]
        intro h
        simp at h
      · intro _
        rw [hplace]
    · have hnone : cellAt w.grid x y = none := by
        simpa [Option.not_isSome_iff_eq_none] using hc
      have hplace : placeComponent w id x y =
          (updateComp { w with grid := setCell w.grid x.toNat y.toNat (some id) } id
            { setPosition (w.comps id) x y with gridRef := true }, true) := by
        unfold placeComponent
        rw [if_neg (not_not_intro hb), if_neg (by simpa using hc)]
      obtain ⟨hx0, hx6, hy0, hy6⟩ := hbp.mp hb
      have hxw : x.toNat < w.grid.width := by omega
      have hyh : y.toNat < w.grid.height := by omega
      refine ⟨?_, ?_, ?_⟩
      · rw [hplace]
        simp only [true_iff]
        exact ⟨hx0, hx6, hy0, hy6, hnone⟩
      · intro _
        have hdim : inBounds (setCell w.grid x.toNat y.toNat (some id)) x y
            = inBounds w.grid x y := rfl
        refine ⟨?_, ?_, ?_, ?_⟩
        · rw [hplace]; simp [updateComp, setPosition]
        · rw [hplace]; simp [updateComp, setPosition]
        · rw [hplace]; simp [updateComp, setPosition]
        · rw [hplace]
          show cellAt (setCell w.grid x.toNat y.toNat (some id)) x y = some id
          unfold cellAt
          rw [hdim, if_pos hb]
          exact cellN_setCell_self w.grid hwf x.toNat y.toNat hxw hyh (some id)
      · rw [hplace]
        intro h
        simp at h
  · have hplace : placeComponent w id x y = (w, false) := by
      unfold placeComponent
      rw [if_pos hb]
    refine ⟨?_, ?_, ?_⟩
    · rw [hplace]
      simp only [Bool.false_eq_true, false_iff]
      rintro ⟨hx0, hx6, hy0, hy6, -⟩
      exact hb (hbp.mpr ⟨hx0, hx6, hy0, hy6⟩)
    · rw [hplace]
      intro h
      simp at h
    · intro _
      rw [hplace]

/-- Witness for C1: placing a fuel cell at (2,2) on the fresh 6x6 grid
succeeds. -/
theorem C1_placeComponent_spec_witness :
    (placeComponent w0 0 2 2).2 = true :=
  ((C1_placeComponent_spec w0 0 2 2 rfl rfl (by decide)).1).mpr
    ⟨by norm_num, by norm_num, by norm_num, by norm_num, by decide⟩

/-- C8 counterexample: after placing a component at (2,2) and removing it,
the cell is empty but the removed component's grid back-reference is still
bound — removeComponent never clears or invalidates it, contrary to the
claim. -/
theorem C8_removeComponent_counterexample :
    cellAt w1.grid 2 2 = some 0 ∧
    cellAt (removeComponent w1 2 2).grid 2 2 = none ∧
    ((removeComponent w1 2 2).comps 0).gridRef = true := by decide

/-- C8 amended: removeComponent on an occupied in-bounds cell empties that
cell, and removing an empty or out-of-bounds cell is a no-op; in every
case no component object is modified — in particular the removed
component's grid back-reference stays bound instead of being cleared. -/
theorem C8_removeComponent_spec (w : World) (x y : Int) (hwf : WF w.grid) :
    ((inBounds w.grid x y = false ∨ cellAt w.grid x y = none) →
        removeComponent w x y = w) ∧
    ((cellAt w.grid x y).isSome = true →
        cellAt (removeComponent w x y).grid x y = none) ∧
    (∀ id, (removeComponent w x y).comps id = w.comps id) := by
  by_cases hb : inBounds w.grid x y = true
  · cases hcell : cellAt w.grid x y with
    | none =>
      have hrem : removeComponent w x y = w := by
        unfold removeComponent
        rw [if_neg (not_not_intro hb)]
        simp only [hcell]
      refine ⟨fun _ => hrem, ?_, fun id => by rw [hrem]⟩
      intro h
      simp at h
    | some i =>
      have hrem : removeComponent w x y
          = { w with grid := setCell w.grid x.toNat y.toNat none } := by
        unfold removeComponent
        rw [if_neg (not_not_intro hb)]
        simp only [hcell]
      obtain ⟨hx0, hxw, hy0, hyh⟩ := (inBounds_iff w.grid x y).mp hb
      have hxw2 : x.toNat < w.grid.width := by omega
      have hyh2 : y.toNat < w.grid.height := by omega
      refine ⟨?_, ?_, ?_⟩
      · rintro (h | h)
        · rw [hb] at h
          cases h
        · simp at h
      · intro _
        rw [hrem]
        show cellAt (setCell w.grid x.toNat y.toNat none) x y = none
        have hdim : inBounds (setCell w.grid x.toNat y.toNat none) x y
            = inBounds w.grid x y := rfl
        unfold cellAt
        rw [hdim, if_pos hb]
        exact cellN_setCell_self w.grid hwf x.toNat y.toNat hxw2 hyh2 none
      · intro id
        rw [hrem]
  · have hrem : removeComponent w x y = w := by
      unfold removeComponent
      rw [if_pos hb]
    refine ⟨fun _ => hrem, ?_, fun id => by rw [hrem]⟩
    intro h
    unfold cellAt at h
    rw [if_neg hb] at h
    simp at h

/-- Witness for C8 amended: removing the component placed at (2,2)
empties that cell. -/
theorem C8_removeComponent_spec_witness :
    cellAt (removeComponent w1 2 2).grid 2 2 = none :=
  (C8_removeComponent_spec w1 2 2 (by decide)).2.1 (by decide)

/-- Per-coolant accepted amounts along the redistribution loop: for each
id in order, the amount that call to acceptHeat actually stored (its share
minus the excess it returned), with the heap threaded exactly as the loop
threads it. -/
def acceptedList (comps : Nat → Component) (share : ℚ) : List Nat → List ℚ
  | [] => []
  | id :: rest =>
    let r := acceptHeat (comps id) share
    (share - r.2) :: acceptedList (fun j => if j = id then r.1 else comps j) share rest

/-- The heat pool accumulated by the redistribution loop equals the initial
pool plus the total offered shares minus the total accepted. -/
theorem distStep_foldl_heat (share : ℚ) :
    ∀ (ids : List Nat) (w : World) (h0 : ℚ),
      (ids.foldl (distStep share) (w, h0)).2
        = h0 + share * ids.length - (acceptedList w.comps share ids).sum := by
  intro ids
  induction ids with
  | nil =>
    intro w h0
    simp [acceptedList]
  | cons id rest ih =>
    intro w h0
    have hstep : distStep share (w, h0) id
        = (updateComp w id (acceptHeat (w.comps id) share).1,
           h0 + (acceptHeat (w.comps id) share).2) := rfl
    rw [List.foldl_cons, hstep, ih]
    show h0 + (acceptHeat (w.comps id) share).2 + share * (rest.length : ℚ)
          - (acceptedList (fun j => if j = id then (acceptHeat (w.comps id) share).1
              else w.comps j) share rest).sum
        = h0 + share * ((id :: rest).length : ℚ)
          - (acceptedList w.comps share (id :: rest)).sum
    rw [acceptedList, List.sum_cons, List.length_cons]
    push_cast
    ring

/-- C2: in the heat redistribution pass, for any grid state with heat > 0
and at least one coolant cell, the heat before the pass exactly equals the
sum of the amounts accepted by the coolant cells (each offered the equal
share heat / coolantCount) plus the shared heat remaining after the pass:
heat is conserved exactly for any distribution of coolant stored-heat and
capacities. -/
theorem C2_heat_conservation (w : World) (s : ReactorState)
    (hh : 0 < s.heat) (hc : 0 < (coolantIds w).length) :
    s.heat
      = (acceptedList w.comps (s.heat / ((coolantIds w).length : ℚ))
          (coolantIds w)).sum
        + (tickPass2 w s).2.heat := by
  have hn : ((coolantIds w).length : ℚ) ≠ 0 := by
    exact_mod_cast Nat.pos_iff_ne_zero.mp hc
  unfold tickPass2
  rw [if_pos hh, if_pos hc]
  show s.heat
      = (acceptedList w.comps (s.heat / ((coolantIds w).length : ℚ))
          (coolantIds w)).sum
        + ((coolantIds w).foldl (distStep (s.heat / ((coolantIds w).length : ℚ)))
            (w, 0)).2
  rw [distStep_foldl_heat, div_mul_cancel₀ s.heat hn]
  ring

/-- Witness for C2: a single coolant cell with 50 heat in the pool. -/
theorem C2_heat_conservation_witness :
    s50.heat
      = (acceptedList wc.comps (s50.heat / ((coolantIds wc).length : ℚ))
          (coolantIds wc)).sum
        + (tickPass2 wc s50).2.heat :=
  C2_heat_conservation wc s50 (by norm_num [s50, initState]) (by decide)

/-- Direct count of the orthogonal neighbour cells of (x,y) that hold a
fuel cell: one count per direction right, left, down, up, nothing else
(diagonals excluded by construction). -/
def orthFuelCount (w : World) (x y : Int) : Nat :=
  adjacentDirs.countP fun d =>
    ((cellAt w.grid (x + d.1) (y + d.2)).map fun i => isFuelCell (w.comps i)).getD false

/-- A bound component's pulse count is one plus the direct orthogonal
fuel-cell count at its position. -/
theorem pulses_eq_orthFuelCount (w : World) (c : Component) (hg : c.gridRef = true) :
    pulses w c = 1 + orthFuelCount w c.x c.y := by
  unfold pulses gridNeighbours getAdjacent orthFuelCount
  rw [hg]
  simp only [if_true, eq_self_iff_true, if_pos, List.countP_filterMap]
  congr 1
  apply List.countP_congr
  intro d hd
  cases cellAt w.grid (c.x + d.1) (c.y + d.2) <;> rfl

/-- C3: for a bound, non-depleted fuel cell, the pulse count equals 1 plus
the number of orthogonally adjacent fuel cells (diagonal neighbours
excluded by construction of the four offsets), and its tick increments age
and applies addPower(basePower x pulses) then addHeat(baseHeat x pulses);
in particular heat rises by exactly baseHeat x pulses. -/
theorem C3_pulses_spec (w : World) (s : ReactorState) (c : Component)
    (bp bh ls a : ℚ) (hk : c.kind = .fuelCell bp bh ls a)
    (hg : c.gridRef = true) (ha : a < ls) :
    pulses w c = 1 + orthFuelCount w c.x c.y ∧
    compTick w s c
      = (addHeat (addPower s (bp * ((1 + orthFuelCount w c.x c.y : Nat) : ℚ)))
          (bh * ((1 + orthFuelCount w c.x c.y : Nat) : ℚ)),
         { c with kind := .fuelCell bp bh ls (a + 1) }) ∧
    (compTick w s c).1.heat
      = s.heat + bh * ((1 + orthFuelCount w c.x c.y : Nat) : ℚ) := by
  have hp := pulses_eq_orthFuelCount w c hg
  have hct : compTick w s c
      = (addHeat (addPower s (bp * (pulses w c : ℚ))) (bh * (pulses w c : ℚ)),
         { c with kind := .fuelCell bp bh ls (a + 1) }) := by
    unfold compTick
    simp only [hk]
    rw [if_neg (not_le.mpr ha)]
    rfl
  refine ⟨hp, ?_, ?_⟩
  · rw [hct, hp]
  · rw [hct, hp]
    rfl

/-- Witness for C3: the centre of a plus of five fuel cells has pulse
count 5 = 1 + 4 orthogonal fuel neighbours. -/
theorem C3_pulses_spec_witness :
    pulses wplus (wplus.comps 0) = 5 ∧
    pulses wplus (wplus.comps 0)
      = 1 + orthFuelCount wplus (wplus.comps 0).x (wplus.comps 0).y :=
  ⟨by decide,
   (C3_pulses_spec wplus initState (wplus.comps 0) 1 1 900 0
      (by decide) (by decide) (by decide)).1⟩

/-- C7 counterexample: with a coolant cell placed at (0,0) and power
already at powerCapacity (100), gameTick performs no overload response:
afterwards power still equals powerCapacity and the component is still on
the grid — nothing in main.js clears the grid on power reaching capacity. -/
theorem C7_no_overload_counterexample :
    (gameTick wc s100).2.power = (gameTick wc s100).2.powerCapacity ∧
    cellAt (gameTick wc s100).1.grid 0 0 = some 0 := by
  set_option maxRecDepth 20000 in decide

/-- C7 amended: the calling layer applies only the meltdown policy after a
tick; whenever the post-tick heat does not exceed heatCapacity, gameTick
returns the grid-tick result unchanged — no component is removed even when
power has reached powerCapacity. -/
theorem C7_gameTick_no_overload (w : World) (s : ReactorState)
    (hml : (gridTick w s).2.heat ≤ (gridTick w s).2.heatCapacity) :
    gameTick w s = gridTick w s := by
  show (if (gridTick w s).2.heatCapacity < (gridTick w s).2.heat
      then (removeFuelCells (gridTick w s).1, { (gridTick w s).2 with heat := 0 })
      else gridTick w s) = gridTick w s
  rw [if_neg (not_lt.mpr hml)]

/-- Witness for C7 amended: the coolant world with power at capacity. -/
theorem C7_gameTick_no_overload_witness :
    gameTick wc s100 = gridTick wc s100 :=
  C7_gameTick_no_overload wc s100 (by set_option maxRecDepth 20000 in decide)

/-- The per-variant immutable data of a component: its kind with the
tick-mutable field (fuel age, coolant storedHeat) erased. -/
def kindShape : CompKind → CompKind
  | .fuelCell bp bh ls _ => .fuelCell bp bh ls 0
  | .vent cr => .vent cr
  | .coolant cap _ => .coolant cap 0

/-- Components agree on everything except their tick-mutable fields. -/
def sameShape (c c2 : Component) : Prop :=
  c2.cost = c.cost ∧ c2.x = c.x ∧ c2.y = c.y ∧ c2.gridRef = c.gridRef ∧
  kindShape c2.kind = kindShape c.kind

theorem sameShape_refl (c : Component) : sameShape c c :=
  ⟨rfl, rfl, rfl, rfl, rfl⟩

theorem sameShape_trans {a b c : Component}
    (h1 : sameShape a b) (h2 : sameShape b c) : sameShape a c :=
  ⟨h2.1.trans h1.1, h2.2.1.trans h1.2.1, h2.2.2.1.trans h1.2.2.1,
   h2.2.2.2.1.trans h1.2.2.2.1, h2.2.2.2.2.trans h1.2.2.2.2⟩

/-- One component tick never touches money or the capacities and keeps the
component's immutable data. -/
theorem compTick_frame (w : World) (s : ReactorState) (c : Component) :
    (compTick w s c).1.money = s.money ∧
    (compTick w s c).1.heatCapacity = s.heatCapacity ∧
    (compTick w s c).1.powerCapacity = s.powerCapacity ∧
    sameShape c (compTick w s c).2 := by
  cases hk : c.kind with
  | fuelCell bp bh ls a =>
    by_cases h : ls ≤ a
    · have he : compTick w s c = (s, c) := by
        unfold compTick
        simp only [hk]
        rw [if_pos h]
      rw [he]
      exact ⟨rfl, rfl, rfl, sameShape_refl c⟩
    · have he : compTick w s c
          = (addHeat (addPower s (bp * (pulses w c : ℚ))) (bh * (pulses w c : ℚ)),
             { c with kind := .fuelCell bp bh ls (a + 1) }) := by
        unfold compTick
        simp only [hk]
        rw [if_neg h]
        rfl
      rw [he]
      refine ⟨rfl, rfl, rfl, rfl, rfl, rfl, rfl, ?_⟩
      rw [hk]
      rfl
  | vent cr =>
    have he : compTick w s c = (removeHeat s cr, c) := by
      unfold compTick
      simp only [hk]
    rw [he]
    exact ⟨rfl, rfl, rfl, sameShape_refl c⟩
  | coolant cap st =>
    have he : compTick w s c = (s, c) := by
      unfold compTick
      simp only [hk]
    rw [he]
    exact ⟨rfl, rfl, rfl, sameShape_refl c⟩

/-- acceptHeat keeps the component's immutable data. -/
theorem acceptHeat_shape (c : Component) (amount : ℚ) :
    sameShape c (acceptHeat c amount).1 := by
  cases hk : c.kind with
  | fuelCell bp bh ls a =>
    have he : acceptHeat c amount = (c, amount) := by
      unfold acceptHeat
      simp only [hk]
    rw [he]
    exact sameShape_refl c
  | vent cr =>
    have he : acceptHeat c amount = (c, amount) := by
      unfold acceptHeat
      simp only [hk]
    rw [he]
    exact sameShape_refl c
  | coolant cap st =>
    have he : (acceptHeat c amount).1
        = { c with kind := .coolant cap (st + min (cap - st) amount) } := by
      unfold acceptHeat
      simp only [hk]
    rw [he]
    refine ⟨rfl, rfl, rfl, rfl, ?_⟩
    rw [hk]
    rfl

/-- The production pass never touches money, the capacities, the grid, or
any component's immutable data. -/
theorem tickStep_foldl_frame (l : List (Int × Int)) :
    ∀ (w : World) (s : ReactorState),
      (l.foldl tickStep (w, s)).2.money = s.money ∧
      (l.foldl tickStep (w, s)).2.heatCapacity = s.heatCapacity ∧
      (l.foldl tickStep (w, s)).2.powerCapacity = s.powerCapacity ∧
      (l.foldl tickStep (w, s)).1.grid = w.grid ∧
      ∀ id, sameShape (w.comps id) ((l.foldl tickStep (w, s)).1.comps id) := by
  induction l with
  | nil =>
    intro w s
    exact ⟨rfl, rfl, rfl, rfl, fun id => sameShape_refl _⟩
  | cons p rest ih =>
    intro w s
    rw [List.foldl_cons]
    cases hcell : cellAt w.grid p.1 p.2 with
    | none =>
      have hts : tickStep (w, s) p = (w, s) := by
        unfold tickStep
        simp only [hcell]
      rw [hts]
      exact ih w s
    | some id =>
      have hts : tickStep (w, s) p
          = (updateComp w id (compTick w s (w.comps id)).2,
             (compTick w s (w.comps id)).1) := by
        unfold tickStep
        simp only [hcell]
      rw [hts]
      obtain ⟨hm, hhc, hpc, hg, hsh⟩ :=
        ih (updateComp w id (compTick w s (w.comps id)).2) (compTick w s (w.comps id)).1
      have hcf := compTick_frame w s (w.comps id)
      refine ⟨by rw [hm, hcf.1], by rw [hhc, hcf.2.1], by rw [hpc, hcf.2.2.1],
        by rw [hg]; rfl, ?_⟩
      intro j
      refine sameShape_trans ?_ (hsh j)
      by_cases hj : j = id
      · subst hj
        show sameShape (w.comps j)
          (if j = j then (compTick w s (w.comps j)).2 else w.comps j)
        rw [if_pos rfl]
        exact hcf.2.2.2
      · show sameShape (w.comps j)
          (if j = id then (compTick w s (w.comps id)).2 else w.comps j)
        rw [if_neg hj]
        exact sameShape_refl _

/-- The redistribution loop never touches the grid or any component's
immutable data. -/
theorem distStep_foldl_frame (share : ℚ) (ids : List Nat) :
    ∀ (w : World) (h0 : ℚ),
      (ids.foldl (distStep share) (w, h0)).1.grid = w.grid ∧
      ∀ id, sameShape (w.comps id) ((ids.foldl (distStep share) (w, h0)).1.comps id) := by
  induction ids with
  | nil =>
    intro w h0
    exact ⟨rfl, fun id => sameShape_refl _⟩
  | cons i rest ih =>
    intro w h0
    rw [List.foldl_cons]
    have hds : distStep share (w, h0) i
        = (updateComp w i (acceptHeat (w.comps i) share).1,
           h0 + (acceptHeat (w.comps i) share).2) := rfl
    rw [hds]
    obtain ⟨hg, hsh⟩ :=
      ih (updateComp w i (acceptHeat (w.comps i) share).1) (h0 + (acceptHeat (w.comps i) share).2)
    refine ⟨by rw [hg]; rfl, ?_⟩
    intro j
    refine sameShape_trans ?_ (hsh j)
    by_cases hj : j = i
    · subst hj
      show sameShape (w.comps j)
        (if j = j then (acceptHeat (w.comps j) share).1 else w.comps j)
      rw [if_pos rfl]
      exact acceptHeat_shape _ _
    · show sameShape (w.comps j)
        (if j = i then (acceptHeat (w.comps i) share).1 else w.comps j)
      rw [if_neg hj]
      exact sameShape_refl _

/-- The redistribution pass never touches money, the capacities, the grid,
or any component's immutable data. -/
theorem tickPass2_frame (w : World) (s : ReactorState) :
    (tickPass2 w s).2.money = s.money ∧
    (tickPass2 w s).2.heatCapacity = s.heatCapacity ∧
    (tickPass2 w s).2.powerCapacity = s.powerCapacity ∧
    (tickPass2 w s).1.grid = w.grid ∧
    ∀ id, sameShape (w.comps id) ((tickPass2 w s).1.comps id) := by
  unfold tickPass2
  by_cases hh : 0 < s.heat
  · rw [if_pos hh]
    by_cases hc : 0 < (coolantIds w).length
    · rw [if_pos hc]
      obtain ⟨hg, hsh⟩ :=
        distStep_foldl_frame (s.heat / ((coolantIds w).length : ℚ)) (coolantIds w) w 0
      exact ⟨rfl, rfl, rfl, hg, hsh⟩
    · rw [if_neg hc]
      exact ⟨rfl, rfl, rfl, rfl, fun id => sameShape_refl _⟩
  · rw [if_neg hh]
    exact ⟨rfl, rfl, rfl, rfl, fun id => sameShape_refl _⟩

/-- C10: Grid.tick leaves money, heatCapacity and powerCapacity unchanged,
leaves the grid (the set of placed components and their positions)
unchanged, and changes no component field other than the tick-mutable ones
(fuel-cell age, coolant storedHeat): cost, position, back-reference and
all per-variant constants are preserved for every component. -/
theorem C10_gridTick_frame (w : World) (s : ReactorState) :
    (gridTick w s).2.money = s.money ∧
    (gridTick w s).2.heatCapacity = s.heatCapacity ∧
    (gridTick w s).2.powerCapacity = s.powerCapacity ∧
    (gridTick w s).1.grid = w.grid ∧
    ∀ id, sameShape (w.comps id) ((gridTick w s).1.comps id) := by
  have h1 := tickStep_foldl_frame (coordsList w.grid) w s
  have h2 := tickPass2_frame (tickPass1 w s).1 (tickPass1 w s).2
  have hgt : gridTick w s = tickPass2 (tickPass1 w s).1 (tickPass1 w s).2 := rfl
  rw [hgt]
  have hp1 : tickPass1 w s = (coordsList w.grid).foldl tickStep (w, s) := rfl
  refine ⟨?_, ?_, ?_, ?_, ?_⟩
  · rw [h2.1, hp1, h1.1]
  · rw [h2.2.1, hp1, h1.2.1]
  · rw [h2.2.2.1, hp1, h1.2.2.1]
  · rw [h2.2.2.2.1, hp1, h1.2.2.2.1]
  · intro id
    refine sameShape_trans ?_ (h2.2.2.2.2 id)
    rw [hp1]
    exact h1.2.2.2.2 id

/-- Grid operations available to callers. -/
inductive GridOp where
  | place (id : Nat) (x y : Int)
  | remove (x y : Int)

/-- Apply one grid operation. -/
def applyOp (w : World) : GridOp → World
  | .place id x y => (placeComponent w id x y).1
  | .remove x y => removeComponent w x y

/-- Apply a sequence of grid operations left to right. -/
def applyOps (w : World) (ops : List GridOp) : World :=
  ops.foldl applyOp w

/-- Some in-range cell currently references the component id. -/
def idPlaced (w : World) (id : Nat) : Prop :=
  ∃ y, y < w.grid.height ∧ ∃ x, x < w.grid.width ∧ cellN w.grid x y = some id

instance (w : World) (id : Nat) : Decidable (idPlaced w id) := by
  unfold idPlaced
  infer_instance

/-- The component referenced by a cell stores that cell's coordinates as
its position. -/
def cellOk (w : World) (x y : Nat) : Prop :=
  match cellN w.grid x y with
  | some id => (w.comps id).x = (x : Int) ∧ (w.comps id).y = (y : Int)
  | none => True

instance (w : World) (x y : Nat) : Decidable (cellOk w x y) := by
  unfold cellOk
  cases cellN w.grid x y with
  | none => exact inferInstanceAs (Decidable True)
  | some id => exact inferInstanceAs (Decidable (_ ∧ _))

/-- The grid invariant of the spec: a well-formed cell array in which every
placed component's stored position matches its cell. -/
def GridInv (w : World) : Prop :=
  WF w.grid ∧ ∀ y, y < w.grid.height → ∀ x, x < w.grid.width → cellOk w x y

instance (w : World) : Decidable (GridInv w) := by
  unfold GridInv
  infer_instance

/-- Freshness precondition of one operation: a place must use a component
object not currently referenced by any cell. -/
def freshFor (w : World) : GridOp → Prop
  | .place id _ _ => ¬ idPlaced w id
  | .remove _ _ => True

instance (w : World) (op : GridOp) : Decidable (freshFor w op) := by
  cases op with
  | place id x y => exact inferInstanceAs (Decidable (¬ idPlaced w id))
  | remove x y => exact inferInstanceAs (Decidable True)

/-- A trace is safe when every operation satisfies its freshness
precondition in the state where it executes. -/
def SafeTrace : World → List GridOp → Prop
  | _, [] => True
  | w, op :: rest => freshFor w op ∧ SafeTrace (applyOp w op) rest

instance instDecidableSafeTrace :
    ∀ (w : World) (ops : List GridOp), Decidable (SafeTrace w ops)
  | _, [] => Decidable.isTrue trivial
  | w, op :: rest =>
    haveI : Decidable (SafeTrace (applyOp w op) rest) :=
      instDecidableSafeTrace (applyOp w op) rest
    inferInstanceAs (Decidable (freshFor w op ∧ SafeTrace (applyOp w op) rest))

/-- removeComponent preserves the grid invariant. -/
theorem GridInv_remove (w : World) (x y : Int) (hinv : GridInv w) :
    GridInv (removeComponent w x y) := by
  obtain ⟨hwf, hcells⟩ := hinv
  by_cases hb : inBounds w.grid x y = true
  · cases hcell : cellAt w.grid x y with
    | none =>
      have hrem : removeComponent w x y = w := by
        unfold removeComponent
        rw [if_neg (not_not_intro hb)]
        simp only [hcell]
      rw [hrem]
      exact ⟨hwf, hcells⟩
    | some i =>
      have hrem : removeComponent w x y
          = { w with grid := setCell w.grid x.toNat y.toNat none } := by
        unfold removeComponent
        rw [if_neg (not_not_intro hb)]
        simp only [hcell]
      rw [hrem]
      refine ⟨WF_setCell w.grid hwf x.toNat y.toNat none, ?_⟩
      intro y2 hy2 x2 hx2
      unfold cellOk
      by_cases heq : x.toNat = x2 ∧ y.toNat = y2
      · obtain ⟨hex, hey⟩ := heq
        subst hex
        subst hey
        obtain ⟨hx0, hxw, hy0, hyh⟩ := (inBounds_iff w.grid x y).mp hb
        have hself := cellN_setCell_self w.grid hwf x.toNat y.toNat
          (by omega) (by omega) none
        show (match cellN (setCell w.grid x.toNat y.toNat none) x.toNat y.toNat with
          | some id => (w.comps id).x = (x.toNat : Int) ∧ (w.comps id).y = (y.toNat : Int)
          | none => True)
        rw [hself]
        trivial
      · have hne := cellN_setCell_ne w.grid x.toNat y.toNat x2 y2 none heq
        show (match cellN (setCell w.grid x.toNat y.toNat none) x2 y2 with
          | some id => (w.comps id).x = (x2 : Int) ∧ (w.comps id).y = (y2 : Int)
          | none => True)
        rw [hne]
        have := hcells y2 hy2 x2 hx2
        unfold cellOk at this
        exact this
  · have hrem : removeComponent w x y = w := by
      unfold removeComponent
      rw [if_pos hb]
    rw [hrem]
    exact ⟨hwf, hcells⟩

/-- placeComponent with a component not already on the grid preserves the
grid invariant. -/
theorem GridInv_place (w : World) (id : Nat) (x y : Int)
    (hinv : GridInv w) (hfresh : ¬ idPlaced w id) :
    GridInv (placeComponent w id x y).1 := by
  obtain ⟨hwf, hcells⟩ := hinv
  by_cases hb : inBounds w.grid x y = true
  · by_cases hc : (cellAt w.grid x y).isSome = true
    · have hplace : placeComponent w id x y = (w, false) := by
        unfold placeComponent
        rw [if_neg (not_not_intro hb), if_pos hc]
      rw [hplace]
      exact ⟨hwf, hcells⟩
    · obtain ⟨hx0, hxw, hy0, hyh⟩ := (inBounds_iff w.grid x y).mp hb
      have hxw2 : x.toNat < w.grid.width := by omega
      have hyh2 : y.toNat < w.grid.height := by omega
      have hplace : (placeComponent w id x y).1
          = updateComp { w with grid := setCell w.grid x.toNat y.toNat (some id) } id
              { setPosition (w.comps id) x y with gridRef := true } := by
        unfold placeComponent
        rw [if_neg (not_not_intro hb), if_neg (by simpa using hc)]
      rw [hplace]
      refine ⟨WF_setCell w.grid hwf x.toNat y.toNat (some id), ?_⟩
      intro y2 hy2 x2 hx2
      unfold cellOk
      by_cases heq : x.toNat = x2 ∧ y.toNat = y2
      · obtain ⟨hex, hey⟩ := heq
        subst hex
        subst hey
        have hself := cellN_setCell_self w.grid hwf x.toNat y.toNat hxw2 hyh2 (some id)
        show (match cellN (setCell w.grid x.toNat y.toNat (some id)) x.toNat y.toNat with
          | some j =>
            ((if j = id then { setPosition (w.comps id) x y with gridRef := true }
              else w.comps j)).x = (x.toNat : Int) ∧
            ((if j = id then { setPosition (w.comps id) x y with gridRef := true }
              else w.comps j)).y = (y.toNat : Int)
          | none => True)
        rw [hself]
        show ((if id = id then { setPosition (w.comps id) x y with gridRef := true }
              else w.comps id)).x = (x.toNat : Int) ∧
             ((if id = id then { setPosition (w.comps id) x y with gridRef := true }
              else w.comps id)).y = (y.toNat : Int)
        rw [if_pos rfl]
        constructor
        · show x = (x.toNat : Int)
          omega
        · show y = (y.toNat : Int)
          omega
      · have hne := cellN_setCell_ne w.grid x.toNat y.toNat x2 y2 (some id) heq
        show (match cellN (setCell w.grid x.toNat y.toNat (some id)) x2 y2 with
          | some j =>
            ((if j = id then { setPosition (w.comps id) x y with gridRef := true }
              else w.comps j)).x = (x2 : Int) ∧
            ((if j = id then { setPosition (w.comps id) x y with gridRef := true }
              else w.comps j)).y = (y2 : Int)
          | none => True)
        rw [hne]
        have hy2w : y2 < w.grid.height := hy2
        have hx2w : x2 < w.grid.width := hx2
        cases hcell : cellN w.grid x2 y2 with
        | none => trivial
        | some j =>
          have hj : j ≠ id := by
            intro hji
            subst hji
            exact hfresh ⟨y2, hy2w, x2, hx2w, hcell⟩
          show ((if j = id then { setPosition (w.comps id) x y with gridRef := true }
                else w.comps j)).x = (x2 : Int) ∧
               ((if j = id then { setPosition (w.comps id) x y with gridRef := true }
                else w.comps j)).y = (y2 : Int)
          rw [if_neg hj]
          have hthis := hcells y2 hy2w x2 hx2w
          unfold cellOk at hthis
          rw [hcell] at hthis
          exact hthis
  · have hplace : placeComponent w id x y = (w, false) := by
      unfold placeComponent
      rw [if_pos hb]
    rw [hplace]
    exact ⟨hwf, hcells⟩

/-- The grid invariant is preserved along any safe trace of operations. -/
theorem GridInv_applyOps (ops : List GridOp) :
    ∀ (w : World), GridInv w → SafeTrace w ops → GridInv (applyOps w ops) := by
  induction ops with
  | nil =>
    intro w h _
    exact h
  | cons op rest ih =>
    intro w hinv hsafe
    have h1 : GridInv (applyOp w op) := by
      cases op with
      | place id x y => exact GridInv_place w id x y hinv hsafe.1
      | remove x y => exact GridInv_remove w x y hinv
    exact ih (applyOp w op) h1 hsafe.2

/-- C9 counterexample: starting from the empty 6x6 world, placing the same
component object 0 at (0,0) and then again at (1,1) — both calls succeed —
leaves it referenced from the two distinct cells (0,0) and (1,1), while its
stored position is (1,1), so the cell (0,0) holds a component whose stored
position differs from that cell: the claimed invariant fails for traces
that reuse a placed component object. -/
theorem C9_counterexample :
    (placeComponent w0 0 0 0).2 = true ∧
    (placeComponent (placeComponent w0 0 0 0).1 0 1 1).2 = true ∧
    cellAt (placeComponent (placeComponent w0 0 0 0).1 0 1 1).1.grid 0 0 = some 0 ∧
    cellAt (placeComponent (placeComponent w0 0 0 0).1 0 1 1).1.grid 1 1 = some 0 ∧
    ((placeComponent (placeComponent w0 0 0 0).1 0 1 1).1.comps 0).x = 1 ∧
    ((placeComponent (placeComponent w0 0 0 0).1 0 1 1).1.comps 0).y = 1 := by
  decide

/-- C9 amended: along every sequence of placeComponent and removeComponent
calls in which each place uses a component object not currently referenced
by the grid, every placed component's stored position equals the
coordinates of the cell holding it, and no component object is referenced
from two distinct cells. -/
theorem C9_grid_inv (w : World) (ops : List GridOp)
    (hinv : GridInv w) (hsafe : SafeTrace w ops) :
    GridInv (applyOps w ops) ∧
    (∀ y1, y1 < (applyOps w ops).grid.height →
     ∀ x1, x1 < (applyOps w ops).grid.width →
     ∀ y2, y2 < (applyOps w ops).grid.height →
     ∀ x2, x2 < (applyOps w ops).grid.width →
     ∀ id : Nat, cellN (applyOps w ops).grid x1 y1 = some id →
       cellN (applyOps w ops).grid x2 y2 = some id → x1 = x2 ∧ y1 = y2) := by
  have h := GridInv_applyOps ops w hinv hsafe
  refine ⟨h, ?_⟩
  intro y1 hy1 x1 hx1 y2 hy2 x2 hx2 id h1 h2
  have o1 := h.2 y1 hy1 x1 hx1
  have o2 := h.2 y2 hy2 x2 hx2
  unfold cellOk at o1 o2
  rw [h1] at o1
  rw [h2] at o2
  obtain ⟨ox1, oy1⟩ := o1
  obtain ⟨ox2, oy2⟩ := o2
  have hx : (x1 : Int) = (x2 : Int) := by rw [← ox1, ox2]
  have hy : (y1 : Int) = (y2 : Int) := by rw [← oy1, oy2]
  exact ⟨by exact_mod_cast hx, by exact_mod_cast hy⟩

/-- Witness for C9 amended: a safe trace placing component 0 at (2,2),
removing it, and re-placing it at (1,1). -/
theorem C9_grid_inv_witness :
    GridInv (applyOps w0 [GridOp.place 0 2 2, GridOp.remove 2 2, GridOp.place 0 1 1]) :=
  (C9_grid_inv w0 [GridOp.place 0 2 2, GridOp.remove 2 2, GridOp.place 0 1 1]
    (by decide) (by decide)).1

end RaksReactor
